import Mathlib

/-!
A shallow embedding of `pkg/cmd/step/helm/step_helm.go` from the jx repository,
together with proofs about the behaviour of `verifyRequirementsYAML`,
`discoverValuesFiles`, `getOrCreateVersionResolver`, `createFuncMap`'s
`versionStream` template function, and `overwriteProviderValues`.

External collaborators (the version-stream catalog client, the file system,
the template engine, YAML parsing and deep merge) are modelled as explicit
parameters: a run of the Go code corresponds to evaluating the Lean function
at the collaborator behaviour observed in that run.
-/

namespace StepHelm

/-- `versionstream.VersionKind` is a Go string type; modelled as `String`. -/
abbrev VersionKind := String

/-- `versionstream.KindChart`, the kind passed to `StableVersionNumber` by
`verifyRequirementsYAML` (defined in `pkg/versionstream`, outside this file). -/
def KindChart : VersionKind := "charts"

/-- The fields of a `helm.Dependency` that `verifyRequirementsYAML` reads or
writes: `Name`, `Alias`, `Repository`, `Version`.  The code never touches any
other field of the entry. -/
structure Dependency where
  name : String
  /-- the Go field `Alias` (`alias` is reserved in Lean) -/
  aliasName : String
  repository : String
  version : String
deriving Repr, DecidableEq

/-- The error cases `verifyRequirementsYAML` can return, keyed by the data the
Go error messages carry. -/
inductive VerifyErr where
  /-- line 115: `failed to load fileName` wrapping the load error -/
  | loadFailed (fileName msg : String)
  /-- line 127: `cannot to find a version for dependency name in file fileName
  as there is no 'repository'` -/
  | missingRepository (name fileName : String)
  /-- line 132: `the helm repository repo does not have an associated prefix ...` -/
  | noPrefixForRepo (repo fileName : String)
  /-- line 138: `failed to find version of chart fullChartName in file fileName`
  wrapping the catalog error -/
  | catalogError (chart fileName msg : String)
  /-- line 141: `failed to find a version for dependency name in file fileName
  in the current version stream ...` -/
  | noVersionFound (name fileName chart : String)
  /-- line 152: `failed to save fileName` wrapping the save error -/
  | saveFailed (fileName msg : String)
deriving Repr, DecidableEq

/-- The effective name used in diagnostics, lines 121-124:
`name := dep.Alias; if name == "" { name = dep.Name }`. -/
def effectiveName (d : Dependency) : String :=
  if d.aliasName = "" then d.name else d.aliasName

/-- The loop body of `verifyRequirementsYAML` (lines 118-147), one dependency
at a time.  Returns the final dependency list, the `modified` flag, the trace
of `resolver.StableVersionNumber` calls performed (kind and full chart name,
in call order), and the error aborting the loop if any.  On an abort the
current dependency and the rest of the list are returned unprocessed, exactly
as the Go `return` leaves them in memory. -/
def processDeps (resolver : VersionKind → String → Except String String)
    (prefixFor : String → String) (fileName : String) :
    List Dependency →
      List Dependency × Bool × List (VersionKind × String) × Option VerifyErr
  | [] => ([], false, [], none)
  | dep :: rest =>
    if dep.version = "" then
      if dep.repository = "" then
        (dep :: rest, false, [], some (.missingRepository (effectiveName dep) fileName))
      else
        let pfx := prefixFor dep.repository
        if pfx = "" then
          (dep :: rest, false, [], some (.noPrefixForRepo dep.repository fileName))
        else
          let fullChartName := pfx ++ "/" ++ dep.name
          match resolver KindChart fullChartName with
          | .error e =>
            (dep :: rest, false, [(KindChart, fullChartName)],
              some (.catalogError fullChartName fileName e))
          | .ok newVersion =>
            if newVersion = "" then
              (dep :: rest, false, [(KindChart, fullChartName)],
                some (.noVersionFound (effectiveName dep) fileName fullChartName))
            else
              let out := processDeps resolver prefixFor fileName rest
              ({ dep with version := newVersion } :: out.1, true,
                (KindChart, fullChartName) :: out.2.2.1, out.2.2.2)
    else
      let out := processDeps resolver prefixFor fileName rest
      (dep :: out.1, out.2.1, out.2.2.1, out.2.2.2)

/-- Everything observable about one run of `verifyRequirementsYAML`. -/
structure VerifyOutcome where
  /-- the in-memory dependency list when the function returns -/
  deps : List Dependency
  /-- the local `modified` flag -/
  modified : Bool
  /-- the `resolver.StableVersionNumber` calls performed, in order -/
  lookups : List (VersionKind × String)
  /-- whether `helm.SaveFile` was invoked -/
  saved : Bool
  /-- the returned error, `none` on success -/
  error : Option VerifyErr
deriving Repr, DecidableEq

/-- `verifyRequirementsYAML` (lines 112-157).  `loadResult` is the outcome of
`helm.LoadRequirementsFile fileName`, `saveResult` the outcome `helm.SaveFile`
would report if invoked; both collaborators live outside this file. -/
def verifyRequirementsYAML (resolver : VersionKind → String → Except String String)
    (prefixFor : String → String) (fileName : String)
    (saveResult : Except String Unit)
    (loadResult : Except String (List Dependency)) : VerifyOutcome :=
  match loadResult with
  | .error e => ⟨[], false, [], false, some (.loadFailed fileName e)⟩
  | .ok deps =>
    let out := processDeps resolver prefixFor fileName deps
    match out.2.2.2 with
    | some e => ⟨out.1, out.2.1, out.2.2.1, false, some e⟩
    | none =>
      if out.2.1 then
        match saveResult with
        | .error e => ⟨out.1, out.2.1, out.2.2.1, true, some (.saveFailed fileName e)⟩
        | .ok _ => ⟨out.1, out.2.1, out.2.2.1, true, none⟩
      else ⟨out.1, out.2.1, out.2.2.1, false, none⟩

/-- The check that `verifyRequirementsYAML` applies to a single dependency:
the error it raises for it, or `none` when the dependency is left alone or
resolved successfully.  Used to state that the function aborts at the first
failing dependency in document order. -/
def depCheck (resolver : VersionKind → String → Except String String)
    (prefixFor : String → String) (fileName : String) (dep : Dependency) :
    Option VerifyErr :=
  if dep.version = "" then
    if dep.repository = "" then
      some (.missingRepository (effectiveName dep) fileName)
    else
      let pfx := prefixFor dep.repository
      if pfx = "" then
        some (.noPrefixForRepo dep.repository fileName)
      else
        let fullChartName := pfx ++ "/" ++ dep.name
        match resolver KindChart fullChartName with
        | .error e => some (.catalogError fullChartName fileName e)
        | .ok newVersion =>
          if newVersion = "" then
            some (.noVersionFound (effectiveName dep) fileName fullChartName)
          else none
  else none

/-- Whether a `VerifyErr` is one of the four per-dependency failures
(as opposed to a load or save failure). -/
def VerifyErr.depFailure : VerifyErr → Bool
  | .missingRepository _ _ => true
  | .noPrefixForRepo _ _ => true
  | .catalogError _ _ _ => true
  | .noVersionFound _ _ _ => true
  | _ => false

/-- `getOrCreateVersionResolver` (lines 99-110) for an arbitrary resolver
type `R`.  `stored` is the `o.versionResolver` field on entry, `create` the
outcome of `o.CreateVersionResolver(vs.URL, vs.Ref)` (a Go constructor
returning a nil pointer alongside an error).  Returns the call's result, the
field's value on exit, and how many times the constructor ran. -/
def getOrCreateVersionResolver {R : Type} (create : Except String R)
    (stored : Option R) : Except String R × Option R × Nat :=
  match stored with
  | some r => (.ok r, some r, 0)
  | none =>
    match create with
    | .ok r => (.ok r, some r, 1)
    | .error e => (.error ("failed to create version resolver: " ++ e), none, 1)

/-- Modelled from the spec: `versionstream.VersionResolver.StableVersionNumber`
is defined in `pkg/versionstream`, outside this file.  §4.4 requires the
template function built on it to yield an empty string on a lookup failure;
since the template function returns the version component verbatim, the
resolver pairs every error with the empty version string. -/
def stableVersionNumber (lookup : VersionKind → String → Except String String)
    (kind : VersionKind) (name : String) : String × Option String :=
  match lookup kind name with
  | .ok v => (v, none)
  | .error e => ("", some e)

/-- The `versionStream` template function registered by `createFuncMap`
(lines 201-208): casts the kind string (`VersionKind` is a string type, so
the cast is the identity), calls `StableVersionNumber`, logs the error if
any, and returns the version component unconditionally.  Its Go type is
`func(string, string) string`: it can never abort the render. -/
def versionStreamFn (lookup : VersionKind → String → Except String String)
    (kindString name : String) : String :=
  (stableVersionNumber lookup kindString name).1

/-- `createFuncMap` (lines 191-210): first calls `getOrCreateVersionResolver`
and propagates its error; on success the func map gains the `versionStream`
entry bound to the returned resolver.  The resolver is represented by the
lookup function it implements. -/
def createFuncMap (create : Except String (VersionKind → String → Except String String))
    (stored : Option (VersionKind → String → Except String String)) :
    Except String (String → String → String) ×
      Option (VersionKind → String → Except String String) × Nat :=
  match getOrCreateVersionResolver create stored with
  | (.error e, st, n) => (.error e, st, n)
  | (.ok r, st, n) => (.ok (versionStreamFn r), st, n)

/-- `filepath.Join` on two non-empty clean relative segments. -/
def joinPath (dir name : String) : String := dir ++ "/" ++ name

/-- The loop of `discoverValuesFiles` (lines 86-95): for each candidate name
in order, check existence; abort with the list collected so far on a check
error; collect the path when it exists. -/
def discoverLoop (fileExistsF : String → Except String Bool) (dir : String)
    (acc : List String) : List String → List String × Option String
  | [] => (acc, none)
  | n :: rest =>
    let path := joinPath dir n
    match fileExistsF path with
    | .error e => (acc, some e)
    | .ok true => discoverLoop fileExistsF dir (acc ++ [path]) rest
    | .ok false => discoverLoop fileExistsF dir acc rest

/-- `discoverValuesFiles` (lines 84-97).  `secretsFileName` stands for the
constant `helm.SecretsFileName` (defined in `pkg/helm`, outside this file),
`fileExistsF` for `util.FileExists`. -/
def discoverValuesFiles (fileExistsF : String → Except String Bool)
    (secretsFileName dir : String) : List String × Option String :=
  discoverLoop fileExistsF dir [] ["values.yaml", secretsFileName, "myvalues.yaml"]

/-- The collaborators `overwriteProviderValues` calls, over an abstract value
tree type `T`:
* `provider` — `requirements.Cluster.Provider`;
* `providersValuesDir` — the overrides root directory argument;
* `fileExistsF` — `util.FileExists`;
* `funcMapResult` — the outcome of `o.createFuncMap(requirements)` (the map
  itself only flows into the render, which is abstracted as `renderFile`);
* `renderFile` — `helm.ReadValuesYamlFileTemplateOutput` on a path;
* `loadValues` — `helm.LoadValues` on a byte string;
* `combine` — `util.CombineMapTrees` (override merged over base);
* `marshal` — `yaml.Marshal`, returning data and optional error. -/
structure OverwriteEnv (T : Type) where
  provider : String
  providersValuesDir : String
  fileExistsF : String → Except String Bool
  funcMapResult : Except String Unit
  renderFile : String → Except String String
  loadValues : String → Except String T
  combine : T → T → T
  marshal : T → String × Option String

/-- The local `valuesTmplYamlFile` of `overwriteProviderValues` (line 218):
`filepath.Join(providersValuesDir, provider, "values.tmpl.yaml")`. -/
def valuesTmplYamlFile {T : Type} (env : OverwriteEnv T) : String :=
  joinPath (joinPath env.providersValuesDir env.provider) "values.tmpl.yaml"

/-- `overwriteProviderValues` (lines 212-258).  Returns the byte string and
optional error the Go function returns; errors are modelled by the wrapping
message with the cause appended. -/
def overwriteProviderValues {T : Type} (env : OverwriteEnv T)
    (valuesData : String) : String × Option String :=
  if env.provider = "" then (valuesData, none)
  else
    match env.fileExistsF (valuesTmplYamlFile env) with
    | .error e =>
      (valuesData, some ("failed to check if file exists: " ++ valuesTmplYamlFile env ++ ": " ++ e))
    | .ok false => (valuesData, none)
    | .ok true =>
      match env.funcMapResult with
      | .error e => (valuesData, some e)
      | .ok _ =>
        match env.renderFile (valuesTmplYamlFile env) with
        | .error e =>
          (valuesData, some ("failed to load provider specific helm value overrides "
            ++ valuesTmplYamlFile env ++ ": " ++ e))
        | .ok overrideData =>
          if overrideData.length = 0 then (valuesData, none)
          else
            match env.loadValues valuesData with
            | .error e =>
              (valuesData, some ("failed to unmarshal the default helm values: " ++ e))
            | .ok values =>
              match env.loadValues overrideData with
              | .error e =>
                (valuesData, some ("failed to unmarshal the default helm values: " ++ e))
              | .ok overrides =>
                env.marshal (env.combine values overrides)

/-! ### Unfolding equations for the resolution loop, one per branch -/

theorem processDeps_nil (resolver : VersionKind → String → Except String String)
    (prefixFor : String → String) (fileName : String) :
    processDeps resolver prefixFor fileName [] = ([], false, [], none) := rfl

theorem processDeps_cons_kept (resolver : VersionKind → String → Except String String)
    (prefixFor : String → String) (fileName : String) (dep : Dependency)
    (rest : List Dependency) (hv : dep.version ≠ "") :
    processDeps resolver prefixFor fileName (dep :: rest) =
      (dep :: (processDeps resolver prefixFor fileName rest).1,
        (processDeps resolver prefixFor fileName rest).2.1,
        (processDeps resolver prefixFor fileName rest).2.2.1,
        (processDeps resolver prefixFor fileName rest).2.2.2) := by
  simp [processDeps, hv]

theorem processDeps_cons_noRepo (resolver : VersionKind → String → Except String String)
    (prefixFor : String → String) (fileName : String) (dep : Dependency)
    (rest : List Dependency) (hv : dep.version = "") (hr : dep.repository = "") :
    processDeps resolver prefixFor fileName (dep :: rest) =
      (dep :: rest, false, [],
        some (.missingRepository (effectiveName dep) fileName)) := by
  simp [processDeps, hv, hr]

theorem processDeps_cons_noPfx (resolver : VersionKind → String → Except String String)
    (prefixFor : String → String) (fileName : String) (dep : Dependency)
    (rest : List Dependency) (hv : dep.version = "") (hr : dep.repository ≠ "")
    (hp : prefixFor dep.repository = "") :
    processDeps resolver prefixFor fileName (dep :: rest) =
      (dep :: rest, false, [],
        some (.noPrefixForRepo dep.repository fileName)) := by
  simp [processDeps, hv, hr, hp]

theorem processDeps_cons_catalogErr (resolver : VersionKind → String → Except String String)
    (prefixFor : String → String) (fileName : String) (dep : Dependency)
    (rest : List Dependency) (e : String) (hv : dep.version = "")
    (hr : dep.repository ≠ "") (hp : prefixFor dep.repository ≠ "")
    (hres : resolver KindChart (prefixFor dep.repository ++ "/" ++ dep.name) =
      .error e) :
    processDeps resolver prefixFor fileName (dep :: rest) =
      (dep :: rest, false,
        [(KindChart, prefixFor dep.repository ++ "/" ++ dep.name)],
        some (.catalogError (prefixFor dep.repository ++ "/" ++ dep.name) fileName e)) := by
  simp [processDeps, hv, hr, hp, hres]

theorem processDeps_cons_noVersion (resolver : VersionKind → String → Except String String)
    (prefixFor : String → String) (fileName : String) (dep : Dependency)
    (rest : List Dependency) (hv : dep.version = "") (hr : dep.repository ≠ "")
    (hp : prefixFor dep.repository ≠ "")
    (hres : resolver KindChart (prefixFor dep.repository ++ "/" ++ dep.name) =
      .ok "") :
    processDeps resolver prefixFor fileName (dep :: rest) =
      (dep :: rest, false,
        [(KindChart, prefixFor dep.repository ++ "/" ++ dep.name)],
        some (.noVersionFound (effectiveName dep) fileName
          (prefixFor dep.repository ++ "/" ++ dep.name))) := by
  simp [processDeps, hv, hr, hp, hres]

theorem processDeps_cons_ok (resolver : VersionKind → String → Except String String)
    (prefixFor : String → String) (fileName : String) (dep : Dependency)
    (rest : List Dependency) (v : String) (hv : dep.version = "")
    (hr : dep.repository ≠ "") (hp : prefixFor dep.repository ≠ "")
    (hres : resolver KindChart (prefixFor dep.repository ++ "/" ++ dep.name) =
      .ok v) (hnv : v ≠ "") :
    processDeps resolver prefixFor fileName (dep :: rest) =
      ({ dep with version := v } :: (processDeps resolver prefixFor fileName rest).1,
        true,
        (KindChart, prefixFor dep.repository ++ "/" ++ dep.name) ::
          (processDeps resolver prefixFor fileName rest).2.2.1,
        (processDeps resolver prefixFor fileName rest).2.2.2) := by
  simp [processDeps, hv, hr, hp, hres, hnv]

/-! ### Helper lemmas about the resolution loop -/

/-- The error returned by the loop is the first per-dependency check failure
in document order. -/
theorem processDeps_error_eq_findSome (resolver : VersionKind → String → Except String String)
    (prefixFor : String → String) (fileName : String) (deps : List Dependency) :
    (processDeps resolver prefixFor fileName deps).2.2.2 =
      deps.findSome? (depCheck resolver prefixFor fileName) := by
  induction deps with
  | nil => simp [processDeps_nil]
  | cons dep rest ih =>
    by_cases hv : dep.version = ""
    · by_cases hr : dep.repository = ""
      · rw [processDeps_cons_noRepo resolver prefixFor fileName dep rest hv hr]
        simp [depCheck, hv, hr]
      · by_cases hp : prefixFor dep.repository = ""
        · rw [processDeps_cons_noPfx resolver prefixFor fileName dep rest hv hr hp]
          simp [depCheck, hv, hr, hp]
        · rcases hres : resolver KindChart (prefixFor dep.repository ++ "/" ++ dep.name)
            with e | v
          · rw [processDeps_cons_catalogErr resolver prefixFor fileName dep rest e hv hr hp hres]
            simp [depCheck, hv, hr, hp, hres]
          · by_cases hnv : v = ""
            · subst hnv
              rw [processDeps_cons_noVersion resolver prefixFor fileName dep rest hv hr hp hres]
              simp [depCheck, hv, hr, hp, hres]
            · rw [processDeps_cons_ok resolver prefixFor fileName dep rest v hv hr hp hres hnv]
              simp only [ih]
              simp [depCheck, hv, hr, hp, hres, hnv]
    · rw [processDeps_cons_kept resolver prefixFor fileName dep rest hv]
      simp only [ih]
      simp [depCheck, hv]

/-- The output list is the input list with some empty versions filled in:
entries whose version was non-empty are returned unchanged, position by
position. -/
theorem processDeps_keeps_nonempty (resolver : VersionKind → String → Except String String)
    (prefixFor : String → String) (fileName : String) (deps : List Dependency) :
    List.Forall₂ (fun a b => a.version ≠ "" → b = a) deps
      (processDeps resolver prefixFor fileName deps).1 := by
  induction deps with
  | nil => simp [processDeps_nil]
  | cons dep rest ih =>
    have hrefl : List.Forall₂ (fun a b : Dependency => a.version ≠ "" → b = a) rest rest :=
      List.forall₂_same.2 (fun x _ _ => rfl)
    by_cases hv : dep.version = ""
    · by_cases hr : dep.repository = ""
      · rw [processDeps_cons_noRepo resolver prefixFor fileName dep rest hv hr]
        exact List.Forall₂.cons (fun h => absurd hv h) hrefl
      · by_cases hp : prefixFor dep.repository = ""
        · rw [processDeps_cons_noPfx resolver prefixFor fileName dep rest hv hr hp]
          exact List.Forall₂.cons (fun h => absurd hv h) hrefl
        · rcases hres : resolver KindChart (prefixFor dep.repository ++ "/" ++ dep.name)
            with e | v
          · rw [processDeps_cons_catalogErr resolver prefixFor fileName dep rest e hv hr hp hres]
            exact List.Forall₂.cons (fun h => absurd hv h) hrefl
          · by_cases hnv : v = ""
            · subst hnv
              rw [processDeps_cons_noVersion resolver prefixFor fileName dep rest hv hr hp hres]
              exact List.Forall₂.cons (fun h => absurd hv h) hrefl
            · rw [processDeps_cons_ok resolver prefixFor fileName dep rest v hv hr hp hres hnv]
              exact List.Forall₂.cons (fun h => absurd hv h) ih
    · rw [processDeps_cons_kept resolver prefixFor fileName dep rest hv]
      exact List.Forall₂.cons (fun _ => rfl) ih

/-- Every catalog lookup the loop performs is for a dependency whose version
was empty, with kind chart and key `prefixFor repository ++ "/" ++ name`
(the `Name` field, never the alias). -/
theorem processDeps_lookups_shape (resolver : VersionKind → String → Except String String)
    (prefixFor : String → String) (fileName : String) (deps : List Dependency) :
    ∀ s ∈ (processDeps resolver prefixFor fileName deps).2.2.1,
      ∃ d ∈ deps, d.version = "" ∧
        s = (KindChart, prefixFor d.repository ++ "/" ++ d.name) := by
  induction deps with
  | nil => simp [processDeps_nil]
  | cons dep rest ih =>
    intro s hs
    by_cases hv : dep.version = ""
    · by_cases hr : dep.repository = ""
      · rw [processDeps_cons_noRepo resolver prefixFor fileName dep rest hv hr] at hs
        simp at hs
      · by_cases hp : prefixFor dep.repository = ""
        · rw [processDeps_cons_noPfx resolver prefixFor fileName dep rest hv hr hp] at hs
          simp at hs
        · rcases hres : resolver KindChart (prefixFor dep.repository ++ "/" ++ dep.name)
            with e | v
          · rw [processDeps_cons_catalogErr resolver prefixFor fileName dep rest e hv hr hp hres]
              at hs
            simp only [List.mem_singleton] at hs
            exact ⟨dep, List.mem_cons_self dep rest, hv, hs⟩
          · by_cases hnv : v = ""
            · subst hnv
              rw [processDeps_cons_noVersion resolver prefixFor fileName dep rest hv hr hp hres]
                at hs
              simp only [List.mem_singleton] at hs
              exact ⟨dep, List.mem_cons_self dep rest, hv, hs⟩
            · rw [processDeps_cons_ok resolver prefixFor fileName dep rest v hv hr hp hres hnv]
                at hs
              rcases List.mem_cons.1 hs with hs | hs
              · exact ⟨dep, List.mem_cons_self dep rest, hv, hs⟩
              · obtain ⟨d, hd, hdv, hds⟩ := ih s hs
                exact ⟨d, List.mem_cons_of_mem dep hd, hdv, hds⟩
    · rw [processDeps_cons_kept resolver prefixFor fileName dep rest hv] at hs
      obtain ⟨d, hd, hdv, hds⟩ := ih s hs
      exact ⟨d, List.mem_cons_of_mem dep hd, hdv, hds⟩

/-- When the loop completes without error, every dependency in the output has
a non-empty version. -/
theorem processDeps_none_all_nonempty (resolver : VersionKind → String → Except String String)
    (prefixFor : String → String) (fileName : String) (deps : List Dependency)
    (h : (processDeps resolver prefixFor fileName deps).2.2.2 = none) :
    ∀ d ∈ (processDeps resolver prefixFor fileName deps).1, d.version ≠ "" := by
  induction deps with
  | nil => simp [processDeps_nil]
  | cons dep rest ih =>
    by_cases hv : dep.version = ""
    · by_cases hr : dep.repository = ""
      · rw [processDeps_cons_noRepo resolver prefixFor fileName dep rest hv hr] at h
        simp at h
      · by_cases hp : prefixFor dep.repository = ""
        · rw [processDeps_cons_noPfx resolver prefixFor fileName dep rest hv hr hp] at h
          simp at h
        · rcases hres : resolver KindChart (prefixFor dep.repository ++ "/" ++ dep.name)
            with e | v
          · rw [processDeps_cons_catalogErr resolver prefixFor fileName dep rest e hv hr hp hres]
              at h
            simp at h
          · by_cases hnv : v = ""
            · subst hnv
              rw [processDeps_cons_noVersion resolver prefixFor fileName dep rest hv hr hp hres]
                at h
              simp at h
            · rw [processDeps_cons_ok resolver prefixFor fileName dep rest v hv hr hp hres hnv]
                at h ⊢
              intro d hd
              rcases List.mem_cons.1 hd with rfl | hd
              · simpa using hnv
              · exact ih h d hd
    · rw [processDeps_cons_kept resolver prefixFor fileName dep rest hv] at h ⊢
      intro d hd
      rcases List.mem_cons.1 hd with rfl | hd
      · exact hv
      · exact ih h d hd

/-- On a list whose dependencies all carry a version, the loop is the
identity: nothing is modified, no lookup happens, no error. -/
theorem processDeps_all_nonempty_id (resolver : VersionKind → String → Except String String)
    (prefixFor : String → String) (fileName : String) (deps : List Dependency)
    (h : ∀ d ∈ deps, d.version ≠ "") :
    processDeps resolver prefixFor fileName deps = (deps, false, [], none) := by
  induction deps with
  | nil => simp [processDeps_nil]
  | cons dep rest ih =>
    have hv : dep.version ≠ "" := h dep (List.mem_cons_self dep rest)
    have hrest := ih (fun d hd => h d (List.mem_cons_of_mem dep hd))
    rw [processDeps_cons_kept resolver prefixFor fileName dep rest hv, hrest]

/-- When the loop completes without error, the `modified` flag is set exactly
when some input dependency had an empty version. -/
theorem processDeps_modified_iff (resolver : VersionKind → String → Except String String)
    (prefixFor : String → String) (fileName : String) (deps : List Dependency)
    (h : (processDeps resolver prefixFor fileName deps).2.2.2 = none) :
    ((processDeps resolver prefixFor fileName deps).2.1 = true ↔
      ∃ d ∈ deps, d.version = "") := by
  induction deps with
  | nil => simp [processDeps_nil]
  | cons dep rest ih =>
    by_cases hv : dep.version = ""
    · by_cases hr : dep.repository = ""
      · rw [processDeps_cons_noRepo resolver prefixFor fileName dep rest hv hr] at h
        simp at h
      · by_cases hp : prefixFor dep.repository = ""
        · rw [processDeps_cons_noPfx resolver prefixFor fileName dep rest hv hr hp] at h
          simp at h
        · rcases hres : resolver KindChart (prefixFor dep.repository ++ "/" ++ dep.name)
            with e | v
          · rw [processDeps_cons_catalogErr resolver prefixFor fileName dep rest e hv hr hp hres]
              at h
            simp at h
          · by_cases hnv : v = ""
            · subst hnv
              rw [processDeps_cons_noVersion resolver prefixFor fileName dep rest hv hr hp hres]
                at h
              simp at h
            · rw [processDeps_cons_ok resolver prefixFor fileName dep rest v hv hr hp hres hnv]
              simp only [true_iff]
              exact ⟨dep, List.mem_cons_self dep rest, hv⟩
    · rw [processDeps_cons_kept resolver prefixFor fileName dep rest hv] at h ⊢
      rw [ih h]
      constructor
      · rintro ⟨d, hd, hdv⟩
        exact ⟨d, List.mem_cons_of_mem dep hd, hdv⟩
      · rintro ⟨d, hd, hdv⟩
        rcases List.mem_cons.1 hd with rfl | hd
        · exact absurd hdv hv
        · exact ⟨d, hd, hdv⟩

/-! ### Unfolding equations for `verifyRequirementsYAML` -/

theorem verify_unfold_err (resolver : VersionKind → String → Except String String)
    (prefixFor : String → String) (fileName : String) (saveResult : Except String Unit)
    (deps : List Dependency) (e : VerifyErr)
    (h : (processDeps resolver prefixFor fileName deps).2.2.2 = some e) :
    verifyRequirementsYAML resolver prefixFor fileName saveResult (.ok deps) =
      ⟨(processDeps resolver prefixFor fileName deps).1,
        (processDeps resolver prefixFor fileName deps).2.1,
        (processDeps resolver prefixFor fileName deps).2.2.1, false, some e⟩ := by
  simp [verifyRequirementsYAML, h]

theorem verify_unfold_unmodified (resolver : VersionKind → String → Except String String)
    (prefixFor : String → String) (fileName : String) (saveResult : Except String Unit)
    (deps : List Dependency)
    (h : (processDeps resolver prefixFor fileName deps).2.2.2 = none)
    (hm : (processDeps resolver prefixFor fileName deps).2.1 = false) :
    verifyRequirementsYAML resolver prefixFor fileName saveResult (.ok deps) =
      ⟨(processDeps resolver prefixFor fileName deps).1, false,
        (processDeps resolver prefixFor fileName deps).2.2.1, false, none⟩ := by
  simp [verifyRequirementsYAML, h, hm]

theorem verify_unfold_saved (resolver : VersionKind → String → Except String String)
    (prefixFor : String → String) (fileName : String)
    (deps : List Dependency)
    (h : (processDeps resolver prefixFor fileName deps).2.2.2 = none)
    (hm : (processDeps resolver prefixFor fileName deps).2.1 = true) :
    verifyRequirementsYAML resolver prefixFor fileName (.ok ()) (.ok deps) =
      ⟨(processDeps resolver prefixFor fileName deps).1, true,
        (processDeps resolver prefixFor fileName deps).2.2.1, true, none⟩ := by
  simp [verifyRequirementsYAML, h, hm]

theorem verify_unfold_savefail (resolver : VersionKind → String → Except String String)
    (prefixFor : String → String) (fileName : String) (e : String)
    (deps : List Dependency)
    (h : (processDeps resolver prefixFor fileName deps).2.2.2 = none)
    (hm : (processDeps resolver prefixFor fileName deps).2.1 = true) :
    verifyRequirementsYAML resolver prefixFor fileName (.error e) (.ok deps) =
      ⟨(processDeps resolver prefixFor fileName deps).1, true,
        (processDeps resolver prefixFor fileName deps).2.2.1, true,
        some (.saveFailed fileName e)⟩ := by
  simp [verifyRequirementsYAML, h, hm]

/-- In every run that starts from a successfully loaded document, the
returned dependency list and the catalog-lookup trace are those of the loop,
whatever the error or save outcome. -/
theorem verify_deps_lookups (resolver : VersionKind → String → Except String String)
    (prefixFor : String → String) (fileName : String) (saveResult : Except String Unit)
    (deps : List Dependency) :
    (verifyRequirementsYAML resolver prefixFor fileName saveResult (.ok deps)).deps =
        (processDeps resolver prefixFor fileName deps).1 ∧
      (verifyRequirementsYAML resolver prefixFor fileName saveResult (.ok deps)).lookups =
        (processDeps resolver prefixFor fileName deps).2.2.1 := by
  rcases hpd : (processDeps resolver prefixFor fileName deps).2.2.2 with _ | e
  · rcases hm : (processDeps resolver prefixFor fileName deps).2.1 with _ | _
    · rw [verify_unfold_unmodified resolver prefixFor fileName saveResult deps hpd hm]
      exact ⟨rfl, rfl⟩
    · rcases saveResult with e | u
      · rw [verify_unfold_savefail resolver prefixFor fileName e deps hpd hm]
        exact ⟨rfl, rfl⟩
      · rw [verify_unfold_saved resolver prefixFor fileName deps hpd hm]
        exact ⟨rfl, rfl⟩
  · rw [verify_unfold_err resolver prefixFor fileName saveResult deps e hpd]
    exact ⟨rfl, rfl⟩

/-! ### Concrete fixtures used by counterexamples and witnesses -/

/-- A dependency with an alias that differs from its name and no version. -/
def aliasedDep : Dependency :=
  ⟨"nginx", "web", "https://charts.example.com", ""⟩

/-- A prefix map knowing exactly one repository. -/
def examplePrefixFor : String → String :=
  fun r => if r = "https://charts.example.com" then "stable" else ""

/-- A catalog resolving exactly the chart `stable/nginx`. -/
def exampleResolver : VersionKind → String → Except String String :=
  fun _ n => if n = "stable/nginx" then .ok "1.2.3" else .error "unknown chart"

/-! ### The claims -/

/-- Claim C1 is false as stated: for the dependency with name `nginx`, alias
`web`, empty version and a repository whose prefix is `stable`, the catalog
lookup performed by `verifyRequirementsYAML` uses the key `stable/nginx`,
built from the `Name` field, and not `stable/web`, the prefix joined with the
effective name (alias or name) that the claim prescribes. -/
theorem c1_counterexample :
    (processDeps exampleResolver examplePrefixFor "requirements.yaml"
        [aliasedDep]).2.2.1 = [(KindChart, "stable/nginx")] ∧
      effectiveName aliasedDep = "web" ∧
      ("stable" ++ "/" ++ effectiveName aliasedDep : String) ≠ "stable/nginx" := by
  refine ⟨by decide, by decide, by decide⟩

/-- Claim C1 (amended): for every dependency with an empty version, a
non-empty repository and a known prefix, the catalog lookup is performed with
kind chart and key `prefix ++ "/" ++ name` where `name` is the dependency's
`Name` field — the alias-or-name effective name is used only in diagnostics —
and every lookup a run performs has this shape. -/
theorem c1_lookup_key_uses_name_field
    (resolver : VersionKind → String → Except String String)
    (prefixFor : String → String) (fileName : String) (dep : Dependency)
    (rest : List Dependency) (hv : dep.version = "") (hr : dep.repository ≠ "")
    (hp : prefixFor dep.repository ≠ "") :
    (processDeps resolver prefixFor fileName (dep :: rest)).2.2.1.head? =
        some (KindChart, prefixFor dep.repository ++ "/" ++ dep.name) ∧
      ∀ s ∈ (processDeps resolver prefixFor fileName (dep :: rest)).2.2.1,
        ∃ d ∈ dep :: rest, d.version = "" ∧
          s = (KindChart, prefixFor d.repository ++ "/" ++ d.name) := by
  constructor
  · rcases hres : resolver KindChart (prefixFor dep.repository ++ "/" ++ dep.name)
      with e | v
    · rw [processDeps_cons_catalogErr resolver prefixFor fileName dep rest e hv hr hp hres]
      rfl
    · by_cases hnv : v = ""
      · subst hnv
        rw [processDeps_cons_noVersion resolver prefixFor fileName dep rest hv hr hp hres]
        rfl
      · rw [processDeps_cons_ok resolver prefixFor fileName dep rest v hv hr hp hres hnv]
        rfl
  · exact processDeps_lookups_shape resolver prefixFor fileName (dep :: rest)

/-- Witness for the amended claim C1 at the aliased fixture: the concrete
lookup key is `stable/nginx`. -/
theorem c1_lookup_key_uses_name_field_witness :
    (processDeps exampleResolver examplePrefixFor "requirements.yaml"
        [aliasedDep]).2.2.1.head? = some (KindChart, "stable/nginx") :=
  (c1_lookup_key_uses_name_field exampleResolver examplePrefixFor
    "requirements.yaml" aliasedDep [] (by decide) (by decide) (by decide)).1

/-- Claim C2: a run that returns no error saved the file exactly when some
dependency had an empty version, and a second run on the document it produced
modifies nothing, performs no catalog lookup, does not save, and returns no
error, whatever the save outcome of that second run would have been. -/
theorem c2_persist_iff_modified_and_idempotent
    (resolver : VersionKind → String → Except String String)
    (prefixFor : String → String) (fileName : String)
    (saveResult saveResult₂ : Except String Unit) (deps : List Dependency)
    (h : (verifyRequirementsYAML resolver prefixFor fileName saveResult
      (.ok deps)).error = none) :
    ((verifyRequirementsYAML resolver prefixFor fileName saveResult
          (.ok deps)).saved = true ↔ ∃ d ∈ deps, d.version = "") ∧
      verifyRequirementsYAML resolver prefixFor fileName saveResult₂
          (.ok (verifyRequirementsYAML resolver prefixFor fileName saveResult
            (.ok deps)).deps) =
        ⟨(verifyRequirementsYAML resolver prefixFor fileName saveResult
            (.ok deps)).deps, false, [], false, none⟩ := by
  rcases hpd : (processDeps resolver prefixFor fileName deps).2.2.2 with _ | e
  · have hsecond : ∀ hdeps : VerifyOutcome,
        hdeps.deps = (processDeps resolver prefixFor fileName deps).1 →
        verifyRequirementsYAML resolver prefixFor fileName saveResult₂
            (.ok hdeps.deps) = ⟨hdeps.deps, false, [], false, none⟩ := by
      intro o ho
      have hall : ∀ d ∈ o.deps, d.version ≠ "" := by
        rw [ho]
        exact processDeps_none_all_nonempty resolver prefixFor fileName deps hpd
      have hid := processDeps_all_nonempty_id resolver prefixFor fileName o.deps hall
      have h1 : (processDeps resolver prefixFor fileName o.deps).2.2.2 = none := by
        rw [hid]
      have h2 : (processDeps resolver prefixFor fileName o.deps).2.1 = false := by
        rw [hid]
      rw [verify_unfold_unmodified resolver prefixFor fileName saveResult₂ o.deps h1 h2,
        hid]
    rcases hm : (processDeps resolver prefixFor fileName deps).2.1 with _ | _
    · rw [verify_unfold_unmodified resolver prefixFor fileName saveResult deps hpd hm]
      constructor
      · simp only [Bool.false_eq_true, false_iff]
        intro hex
        exact absurd ((processDeps_modified_iff resolver prefixFor fileName deps hpd).2 hex)
          (by rw [hm]; exact Bool.false_ne_true)
      · exact hsecond ⟨(processDeps resolver prefixFor fileName deps).1, false,
          (processDeps resolver prefixFor fileName deps).2.2.1, false, none⟩ rfl
    · rcases saveResult with e | u
      · rw [verify_unfold_savefail resolver prefixFor fileName e deps hpd hm] at h
        exact absurd h (by simp)
      · rw [verify_unfold_saved resolver prefixFor fileName deps hpd hm]
        constructor
        · simp only [true_iff]
          exact (processDeps_modified_iff resolver prefixFor fileName deps hpd).1 hm
        · exact hsecond ⟨(processDeps resolver prefixFor fileName deps).1, true,
            (processDeps resolver prefixFor fileName deps).2.2.1, true, none⟩ rfl
  · rw [verify_unfold_err resolver prefixFor fileName saveResult deps e hpd] at h
    exact absurd h (by simp)

/-- Witness for claim C2: resolving the single-dependency fixture saves the
file, and a second run on the produced document is the identity. -/
theorem c2_persist_iff_modified_and_idempotent_witness :
    ((verifyRequirementsYAML exampleResolver examplePrefixFor "requirements.yaml"
          (.ok ()) (.ok [aliasedDep])).saved = true ↔
        ∃ d ∈ [aliasedDep], d.version = "") ∧
      verifyRequirementsYAML exampleResolver examplePrefixFor "requirements.yaml"
          (.ok ()) (.ok (verifyRequirementsYAML exampleResolver examplePrefixFor
            "requirements.yaml" (.ok ()) (.ok [aliasedDep])).deps) =
        ⟨(verifyRequirementsYAML exampleResolver examplePrefixFor "requirements.yaml"
            (.ok ()) (.ok [aliasedDep])).deps, false, [], false, none⟩ :=
  c2_persist_iff_modified_and_idempotent exampleResolver examplePrefixFor
    "requirements.yaml" (.ok ()) (.ok ()) [aliasedDep] (by decide)

/-- Claim C3: when a run fails on a dependency (missing repository, missing
prefix, catalog error or empty resolved version), `SaveFile` is never called,
and the returned error is precisely the first per-dependency failure in
document order. -/
theorem c3_abort_first_failure_no_save
    (resolver : VersionKind → String → Except String String)
    (prefixFor : String → String) (fileName : String)
    (saveResult : Except String Unit) (deps : List Dependency) (e : VerifyErr)
    (h : (verifyRequirementsYAML resolver prefixFor fileName saveResult
      (.ok deps)).error = some e)
    (hdep : e.depFailure = true) :
    (verifyRequirementsYAML resolver prefixFor fileName saveResult
        (.ok deps)).saved = false ∧
      deps.findSome? (depCheck resolver prefixFor fileName) = some e := by
  rcases hpd : (processDeps resolver prefixFor fileName deps).2.2.2 with _ | e'
  · rcases hm : (processDeps resolver prefixFor fileName deps).2.1 with _ | _
    · rw [verify_unfold_unmodified resolver prefixFor fileName saveResult deps hpd hm] at h
      exact absurd h (by simp)
    · rcases saveResult with se | u
      · rw [verify_unfold_savefail resolver prefixFor fileName se deps hpd hm] at h
        have : e = .saveFailed fileName se := by
          have := Option.some.inj h
          exact this.symm
        rw [this] at hdep
        exact absurd hdep (by simp [VerifyErr.depFailure])
      · rw [verify_unfold_saved resolver prefixFor fileName deps hpd hm] at h
        exact absurd h (by simp)
  · rw [verify_unfold_err resolver prefixFor fileName saveResult deps e' hpd] at h ⊢
    have he : e' = e := Option.some.inj h
    subst he
    refine ⟨rfl, ?_⟩
    rw [← processDeps_error_eq_findSome resolver prefixFor fileName deps]
    exact hpd

/-- Witness for claim C3 at a dependency whose repository is unknown to the
prefix map: no save, and the error is the first dependency check. -/
theorem c3_abort_first_failure_no_save_witness :
    (verifyRequirementsYAML exampleResolver examplePrefixFor "requirements.yaml"
        (.ok ()) (.ok [⟨"foo", "", "https://unknown.example.com", ""⟩])).saved = false ∧
      [(⟨"foo", "", "https://unknown.example.com", ""⟩ : Dependency)].findSome?
          (depCheck exampleResolver examplePrefixFor "requirements.yaml") =
        some (.noPrefixForRepo "https://unknown.example.com" "requirements.yaml") :=
  c3_abort_first_failure_no_save exampleResolver examplePrefixFor
    "requirements.yaml" (.ok ()) [⟨"foo", "", "https://unknown.example.com", ""⟩]
    (.noPrefixForRepo "https://unknown.example.com" "requirements.yaml")
    (by decide) (by decide)

/-- Claim C4: a dependency with an empty version whose repository is empty,
or whose repository has no prefix in the prefix map, makes the run fail, and
nothing is persisted. -/
theorem c4_missing_repo_or_missing_prefix_fails
    (resolver : VersionKind → String → Except String String)
    (prefixFor : String → String) (fileName : String)
    (saveResult : Except String Unit) (deps : List Dependency) (d : Dependency)
    (hd : d ∈ deps) (hv : d.version = "")
    (hrp : d.repository = "" ∨ prefixFor d.repository = "") :
    (verifyRequirementsYAML resolver prefixFor fileName saveResult
        (.ok deps)).error.isSome = true ∧
      (verifyRequirementsYAML resolver prefixFor fileName saveResult
        (.ok deps)).saved = false := by
  have hcheck : depCheck resolver prefixFor fileName d ≠ none := by
    by_cases hr : d.repository = ""
    · simp [depCheck, hv, hr]
    · rcases hrp with hrp | hrp
      · exact absurd hrp hr
      · simp [depCheck, hv, hr, hrp]
  have hfind : deps.findSome? (depCheck resolver prefixFor fileName) ≠ none := by
    intro hnone
    exact hcheck (List.findSome?_eq_none_iff.1 hnone d hd)
  have hpd : (processDeps resolver prefixFor fileName deps).2.2.2 ≠ none := by
    rw [processDeps_error_eq_findSome resolver prefixFor fileName deps]
    exact hfind
  rcases hpd' : (processDeps resolver prefixFor fileName deps).2.2.2 with _ | e
  · exact absurd hpd' hpd
  · rw [verify_unfold_err resolver prefixFor fileName saveResult deps e hpd']
    exact ⟨rfl, rfl⟩

/-- Witness for claim C4 at a dependency with an empty repository. -/
theorem c4_missing_repo_or_missing_prefix_fails_witness :
    (verifyRequirementsYAML exampleResolver examplePrefixFor "requirements.yaml"
        (.ok ()) (.ok [⟨"foo", "", "", ""⟩])).error.isSome = true ∧
      (verifyRequirementsYAML exampleResolver examplePrefixFor "requirements.yaml"
        (.ok ()) (.ok [⟨"foo", "", "", ""⟩])).saved = false :=
  c4_missing_repo_or_missing_prefix_fails exampleResolver examplePrefixFor
    "requirements.yaml" (.ok ()) [⟨"foo", "", "", ""⟩] ⟨"foo", "", "", ""⟩
    (by decide) (by decide) (Or.inl (by decide))

/-- Claim C5: on any input document, every dependency whose version is
non-empty on entry is returned unchanged at its position, and every catalog
lookup the run performs is for a dependency whose version was empty. -/
theorem c5_nonempty_version_untouched
    (resolver : VersionKind → String → Except String String)
    (prefixFor : String → String) (fileName : String)
    (saveResult : Except String Unit) (deps : List Dependency) :
    List.Forall₂ (fun a b => a.version ≠ "" → b = a) deps
        (verifyRequirementsYAML resolver prefixFor fileName saveResult
          (.ok deps)).deps ∧
      ∀ s ∈ (verifyRequirementsYAML resolver prefixFor fileName saveResult
          (.ok deps)).lookups,
        ∃ d ∈ deps, d.version = "" ∧
          s = (KindChart, prefixFor d.repository ++ "/" ++ d.name) := by
  obtain ⟨h1, h2⟩ := verify_deps_lookups resolver prefixFor fileName saveResult deps
  rw [h1, h2]
  exact ⟨processDeps_keeps_nonempty resolver prefixFor fileName deps,
    processDeps_lookups_shape resolver prefixFor fileName deps⟩

/-- Witness for claim C5 on a two-dependency document whose first entry
already carries a version. -/
theorem c5_nonempty_version_untouched_witness :
    List.Forall₂ (fun a b => a.version ≠ "" → b = a)
        [⟨"redis", "", "https://charts.example.com", "9.9.9"⟩, aliasedDep]
        (verifyRequirementsYAML exampleResolver examplePrefixFor "requirements.yaml"
          (.ok ()) (.ok [⟨"redis", "", "https://charts.example.com", "9.9.9"⟩,
            aliasedDep])).deps ∧
      ∀ s ∈ (verifyRequirementsYAML exampleResolver examplePrefixFor
          "requirements.yaml" (.ok ())
          (.ok [⟨"redis", "", "https://charts.example.com", "9.9.9"⟩,
            aliasedDep])).lookups,
        ∃ d ∈ [(⟨"redis", "", "https://charts.example.com", "9.9.9"⟩ : Dependency),
            aliasedDep], d.version = "" ∧
          s = (KindChart, examplePrefixFor d.repository ++ "/" ++ d.name) :=
  c5_nonempty_version_untouched exampleResolver examplePrefixFor
    "requirements.yaml" (.ok ())
    [⟨"redis", "", "https://charts.example.com", "9.9.9"⟩, aliasedDep]

/-- An environment whose provider is empty (value trees taken as `Unit`). -/
def envNoProvider : OverwriteEnv Unit :=
  ⟨"", "providers", fun _ => .ok false, .ok (), fun _ => .ok "",
    fun _ => .ok (), fun _ _ => (), fun _ => ("", none)⟩

/-- An environment whose override-file existence check fails. -/
def envExistsErr : OverwriteEnv Unit :=
  ⟨"gke", "providers", fun _ => .error "disk on fire", .ok (), fun _ => .ok "",
    fun _ => .ok (), fun _ _ => (), fun _ => ("", none)⟩

/-- Claim C6: `overwriteProviderValues` returns the input bytes unchanged with
no error when the configured provider is empty, when the provider's
`values.tmpl.yaml` override file does not exist, or when the rendered
override output is empty. -/
theorem c6_unchanged_on_benign_cases {T : Type} (env : OverwriteEnv T)
    (valuesData : String)
    (h : env.provider = "" ∨
      env.fileExistsF (valuesTmplYamlFile env) = .ok false ∨
      (env.fileExistsF (valuesTmplYamlFile env) = .ok true ∧
        env.funcMapResult = .ok () ∧
        ∃ od, env.renderFile (valuesTmplYamlFile env) = .ok od ∧ od.length = 0)) :
    overwriteProviderValues env valuesData = (valuesData, none) := by
  rcases h with hp | hex | ⟨hex, hfm, od, hrender, hod⟩
  · simp [overwriteProviderValues, hp]
  · by_cases hp : env.provider = ""
    · simp [overwriteProviderValues, hp]
    · simp [overwriteProviderValues, hp, hex]
  · by_cases hp : env.provider = ""
    · simp [overwriteProviderValues, hp]
    · simp [overwriteProviderValues, hp, hex, hfm, hrender, hod]

/-- Witness for claim C6 at an environment with no configured provider. -/
theorem c6_unchanged_on_benign_cases_witness :
    overwriteProviderValues envNoProvider "replicas: 2\n" = ("replicas: 2\n", none) :=
  c6_unchanged_on_benign_cases envNoProvider "replicas: 2\n" (Or.inl rfl)

/-- Claim C7: the `versionStream` template function is total — its type is
`String → String → String`, so a lookup failure can never abort the render —
and when the resolver's `StableVersionNumber` reports an error the rendered
value is the empty string; `createFuncMap` registers exactly this function for
the resolver it obtained. -/
theorem c7_versionStream_swallows_lookup_error
    (lookup : VersionKind → String → Except String String)
    (kindString name e : String) (h : lookup kindString name = .error e) :
    versionStreamFn lookup kindString name = "" ∧
      (createFuncMap (.ok lookup) none).1 = .ok (versionStreamFn lookup) := by
  constructor
  · simp [versionStreamFn, stableVersionNumber, h]
  · rfl

/-- Witness for claim C7 at a chart the example catalog does not know. -/
theorem c7_versionStream_swallows_lookup_error_witness :
    versionStreamFn exampleResolver "charts" "stable/unknown" = "" :=
  (c7_versionStream_swallows_lookup_error exampleResolver "charts"
    "stable/unknown" "unknown chart" rfl).1

/-- Claim C8: the first successful `getOrCreateVersionResolver` call
constructs the resolver exactly once and stores it, and every call on the
stored state — whatever constructor outcome it would have seen — returns the
same instance with zero constructions; `createFuncMap` on a stored resolver
likewise constructs nothing and registers that instance's lookup. -/
theorem c8_resolver_memoized {R : Type} (create create₂ : Except String R) (r : R)
    (h : (getOrCreateVersionResolver create none).1 = .ok r) :
    getOrCreateVersionResolver create none = (.ok r, some r, 1) ∧
      getOrCreateVersionResolver create₂ (some r) = (.ok r, some r, 0) ∧
      ∀ (create₃ : Except String (VersionKind → String → Except String String))
        (lk : VersionKind → String → Except String String),
        createFuncMap create₃ (some lk) = (.ok (versionStreamFn lk), some lk, 0) := by
  have hc : create = .ok r := by
    rcases create with e | r'
    · simp [getOrCreateVersionResolver] at h
    · have : r' = r := by simpa [getOrCreateVersionResolver] using h
      rw [this]
  subst hc
  exact ⟨rfl, rfl, fun _ _ => rfl⟩

/-- Witness for claim C8 with natural-number resolver handles. -/
theorem c8_resolver_memoized_witness :
    getOrCreateVersionResolver (Except.ok 7) (none : Option Nat) =
        (.ok 7, some 7, 1) ∧
      getOrCreateVersionResolver (Except.error "unreachable") (some 7) =
        (.ok 7, some 7, 0) :=
  ⟨(c8_resolver_memoized (Except.ok 7) (Except.error "unreachable") 7 rfl).1,
    (c8_resolver_memoized (Except.ok 7) (Except.error "unreachable") 7 rfl).2.1⟩

/-- Whether an existence check returned `true`. -/
def isOkTrue (x : Except String Bool) : Bool :=
  match x with
  | .ok true => true
  | _ => false

/-- When every existence check succeeds, the discovery loop appends, in
candidate order, exactly the paths whose check returned `true`. -/
theorem discoverLoop_all_ok (fe : String → Except String Bool) (dir : String)
    (names : List String) (acc : List String)
    (h : ∀ n ∈ names, (fe (joinPath dir n)).isOk = true) :
    discoverLoop fe dir acc names =
      (acc ++ (names.map (joinPath dir)).filter (fun p => isOkTrue (fe p)), none) := by
  induction names generalizing acc with
  | nil => simp [discoverLoop]
  | cons n rest ih =>
    have hn := h n (List.mem_cons_self n rest)
    rcases hfe : fe (joinPath dir n) with e | b
    · rw [hfe] at hn
      simp [Except.isOk, Except.toBool] at hn
    · have hrest : ∀ m ∈ rest, (fe (joinPath dir m)).isOk = true :=
        fun m hm => h m (List.mem_cons_of_mem n hm)
      cases b
      · have hfalse : isOkTrue (fe (joinPath dir n)) = false := by
          simp [isOkTrue, hfe]
        simp [discoverLoop, hfe, ih _ hrest, List.filter_cons,
          (show isOkTrue (Except.ok false) = false from rfl)]
      · have htrue : isOkTrue (fe (joinPath dir n)) = true := by
          simp [isOkTrue, hfe]
        simp [discoverLoop, hfe, ih _ hrest, List.filter_cons, List.append_assoc,
          (show isOkTrue (Except.ok true) = true from rfl)]

/-- Claim C9: when the existence checks succeed, `discoverValuesFiles` checks
`values.yaml`, the secrets values file and `myvalues.yaml` under the
directory, in that fixed order, and returns the paths of all of those that
exist, in that order. -/
theorem c9_discoverValuesFiles_collects_in_order (fe : String → Except String Bool)
    (secretsFileName dir : String)
    (h : ∀ n ∈ ["values.yaml", secretsFileName, "myvalues.yaml"],
      (fe (joinPath dir n)).isOk = true) :
    discoverValuesFiles fe secretsFileName dir =
      ((["values.yaml", secretsFileName, "myvalues.yaml"].map (joinPath dir)).filter
        (fun p => isOkTrue (fe p)), none) := by
  simpa [discoverValuesFiles] using
    discoverLoop_all_ok fe dir ["values.yaml", secretsFileName, "myvalues.yaml"] [] h

/-- A file system where only `d/values.yaml` and `d/myvalues.yaml` exist. -/
def exampleFileExistsF : String → Except String Bool :=
  fun p => .ok (p == "d/values.yaml" || p == "d/myvalues.yaml")

/-- Witness for claim C9: the secrets file is missing, the two others are
found and returned in order. -/
theorem c9_discoverValuesFiles_collects_in_order_witness :
    discoverValuesFiles exampleFileExistsF "secrets.yaml" "d" =
      (["d/values.yaml", "d/myvalues.yaml"], none) := by
  have h := c9_discoverValuesFiles_collects_in_order exampleFileExistsF
    "secrets.yaml" "d" (by decide)
  rw [h]
  rfl

/-- Claim C10: on each error path before the final serialization — existence
check failure, func-map construction failure, render failure, parse failure
of the base document, parse failure of the override document — the bytes
returned alongside the error are exactly the input values bytes. -/
theorem c10_error_paths_return_input {T : Type} (env : OverwriteEnv T)
    (valuesData : String)
    (h : env.provider ≠ "" ∧
      ((∃ e, env.fileExistsF (valuesTmplYamlFile env) = .error e) ∨
        (env.fileExistsF (valuesTmplYamlFile env) = .ok true ∧
          ((∃ e, env.funcMapResult = .error e) ∨
            (env.funcMapResult = .ok () ∧
              ((∃ e, env.renderFile (valuesTmplYamlFile env) = .error e) ∨
                (∃ od, env.renderFile (valuesTmplYamlFile env) = .ok od ∧
                  od.length ≠ 0 ∧
                  ((∃ e, env.loadValues valuesData = .error e) ∨
                    (∃ t e, env.loadValues valuesData = .ok t ∧
                      env.loadValues od = .error e))))))))) :
    (overwriteProviderValues env valuesData).1 = valuesData ∧
      (overwriteProviderValues env valuesData).2.isSome = true := by
  obtain ⟨hp, h⟩ := h
  rcases h with ⟨e, hex⟩ | ⟨hex, h⟩
  · simp [overwriteProviderValues, hp, hex]
  rcases h with ⟨e, hfm⟩ | ⟨hfm, h⟩
  · simp [overwriteProviderValues, hp, hex, hfm]
  rcases h with ⟨e, hrender⟩ | ⟨od, hrender, hod, h⟩
  · simp [overwriteProviderValues, hp, hex, hfm, hrender]
  rcases h with ⟨e, hload⟩ | ⟨t, e, hload, hover⟩
  · simp [overwriteProviderValues, hp, hex, hfm, hrender, hod, hload]
  · simp [overwriteProviderValues, hp, hex, hfm, hrender, hod, hload, hover]

/-- Witness for claim C10 at an environment whose existence check fails. -/
theorem c10_error_paths_return_input_witness :
    (overwriteProviderValues envExistsErr "replicas: 2\n").1 = "replicas: 2\n" ∧
      (overwriteProviderValues envExistsErr "replicas: 2\n").2.isSome = true :=
  c10_error_paths_return_input envExistsErr "replicas: 2\n"
    ⟨by decide, Or.inl ⟨"disk on fire", rfl⟩⟩

end StepHelm
